import Mathlib

/-!
Verification of the Conway's Game of Life simulator in `src/main.py`.

The source is a single Python file: a pure generation engine
(`count_live_neighbors`, `apply_rules`), pattern/random generators, an event
handler (`handle_event`, `handle_mouse_click`) and a main loop.  We embed it
shallowly: Python `set` becomes `Finset (ℤ × ℤ)`, Python integers become `ℤ`
(coordinates) or `ℕ` (the non-negative counters `count` and `iteration`),
Python `%` on a positive modulus becomes `Int.emod` (both are non-negative
there) and Python `//` becomes `Int.fdiv` (both floor).  The ambient random
source `random.random() < RANDOM_DENSITY` is modelled by a per-cell coin
`ℤ × ℤ → Bool` carried by the keydown event that consumes it, and the ambient
mouse position by a coordinate pair carried by the mouse event.

The module-level constants `ROWS`, `COLS`, `UPDATE_FREQ` are grouped into a
`Config`; `sourceConfig` is the configuration fixed in the source
(`1200 // 5 = 240` rows and columns, update frequency `2`).  Keeping them as a
parameter lets properties about other configured grids (5×5, 10×10) be stated
against the same translated function bodies.
-/

namespace Life

/-- `SCREEN_WIDTH` from the source constants. -/
def SCREEN_WIDTH : ℤ := 1200

/-- `SCREEN_HEIGHT` from the source constants. -/
def SCREEN_HEIGHT : ℤ := 1200

/-- `TILE_SIZE` from the source constants. -/
def TILE_SIZE : ℤ := 5

/-- `ROWS = SCREEN_WIDTH // TILE_SIZE` (= 240). -/
def ROWS : ℤ := SCREEN_WIDTH.fdiv TILE_SIZE

/-- `COLS = SCREEN_HEIGHT // TILE_SIZE` (= 240). -/
def COLS : ℤ := SCREEN_HEIGHT.fdiv TILE_SIZE

/-- `UPDATE_FREQ` from the source constants. -/
def UPDATE_FREQ : ℕ := 2

/-- pygame's `K_SPACE` key code. -/
def K_SPACE : ℕ := 32

/-- pygame's `K_c` key code. -/
def K_c : ℕ := 99

/-- pygame's `K_r` key code. -/
def K_r : ℕ := 114

/-- pygame's `K_p` key code. -/
def K_p : ℕ := 112

/-- The Moore-neighborhood offsets, in the order listed in
`count_live_neighbors`. -/
def offsets : List (ℤ × ℤ) :=
  [(-1, -1), (-1, 0), (-1, 1), (0, -1), (0, 1), (1, -1), (1, 0), (1, 1)]

/-- One wrapped neighbor coordinate:
`neighbor_x = (x + offset_x) % COLS`, `neighbor_y = (y + offset_y) % ROWS`.
The first component is wrapped by the column count, the second by the row
count, exactly as in the source. -/
def wrap_neighbor (position off : ℤ × ℤ) (rows cols : ℤ) : ℤ × ℤ :=
  ((position.1 + off.1) % cols, (position.2 + off.2) % rows)

/-- The eight wrapped neighbor coordinates of `position`. -/
def wrapped_neighbors (position : ℤ × ℤ) (rows cols : ℤ) : List (ℤ × ℤ) :=
  offsets.map (fun off => wrap_neighbor position off rows cols)

/-- `count_live_neighbors`: for each of the eight offsets, wrap the neighbor
coordinate and count it when it is a member of `grid_positions`. -/
def count_live_neighbors (grid_positions : Finset (ℤ × ℤ)) (position : ℤ × ℤ)
    (rows cols : ℤ) : ℕ :=
  (wrapped_neighbors position rows cols).countP
    (fun neighbor_pos => decide (neighbor_pos ∈ grid_positions))

/-- The coordinate space scanned by `apply_rules`: `position = (row, col)` for
`row in range(0, ROWS)`, `col in range(0, COLS)`. -/
def grid_cells (rows cols : ℤ) : Finset (ℤ × ℤ) :=
  Finset.Icc 0 (rows - 1) ×ˢ Finset.Icc 0 (cols - 1)

/-- `apply_rules`: scan every `(row, col)` of the grid; keep a live cell with
2 or 3 live neighbors, create a dead cell with exactly 3 live neighbors,
drop everything else. -/
def apply_rules (grid_positions : Finset (ℤ × ℤ)) (rows cols : ℤ) :
    Finset (ℤ × ℤ) :=
  (grid_cells rows cols).filter (fun position =>
    (position ∈ grid_positions ∧
      (count_live_neighbors grid_positions position rows cols = 2 ∨
        count_live_neighbors grid_positions position rows cols = 3)) ∨
    (count_live_neighbors grid_positions position rows cols = 3 ∧
      position ∉ grid_positions))

/-- `generate_random_grid_positions`: for `y in range(0, ROWS)`,
`x in range(0, COLS)`, include `(x, y)` when `random.random() < RANDOM_DENSITY`.
The random draws are modelled by the per-cell coin `coin`. -/
def generate_random_grid_positions (rows cols : ℤ) (coin : ℤ × ℤ → Bool) :
    Finset (ℤ × ℤ) :=
  (Finset.Icc 0 (cols - 1) ×ˢ Finset.Icc 0 (rows - 1)).filter (fun p => coin p)

/-- `generate_pattern`: for every `(x, y)` in the grid, include the cell when
any of the five conditions hold (cross, X, ring, parabola, quartic); the five
independent `if`-and-`add` statements amount to a disjunction.  Python `//`
is floor division, hence `Int.fdiv`. -/
def generate_pattern (rows cols : ℤ) : Finset (ℤ × ℤ) :=
  (Finset.Icc 0 (cols - 1) ×ˢ Finset.Icc 0 (rows - 1)).filter (fun p =>
    (p.1 = cols.fdiv 2 ∨ p.2 = rows.fdiv 2) ∨
    (p.1 = p.2 ∨ p.1 = cols - p.2) ∨
    (((rows - 10).fdiv 2) ^ 2 < (p.1 - cols.fdiv 2) ^ 2 + (p.2 - rows.fdiv 2) ^ 2 ∧
      (p.1 - cols.fdiv 2) ^ 2 + (p.2 - rows.fdiv 2) ^ 2 < (rows.fdiv 2) ^ 2) ∨
    (p.2 = rows.fdiv 2 - ((p.1 - cols.fdiv 2) ^ 2).fdiv 100) ∨
    (p.2 = rows.fdiv 2 - ((p.1 - cols.fdiv 2) ^ 4).fdiv 1000000))

/-- `handle_mouse_click`: derive the grid coordinate from the pixel coordinate
by floor division with `TILE_SIZE` and toggle its membership.  The source reads
the mouse position from pygame; here it is an explicit argument. -/
def handle_mouse_click (grid_positions : Finset (ℤ × ℤ)) (mouse_pos : ℤ × ℤ) :
    Finset (ℤ × ℤ) :=
  let grid_pos : ℤ × ℤ := (mouse_pos.1.fdiv TILE_SIZE, mouse_pos.2.fdiv TILE_SIZE)
  if grid_pos ∈ grid_positions then grid_positions.erase grid_pos
  else insert grid_pos grid_positions

/-- The module-level configuration constants of the source, kept as a
parameter so that properties about other configured grid sizes and update
frequencies can be stated against the same function bodies. -/
structure Config where
  rows : ℤ
  cols : ℤ
  update_freq : ℕ

/-- The configuration fixed in the source: `ROWS = COLS = 240`,
`UPDATE_FREQ = 2`. -/
def sourceConfig : Config :=
  { rows := ROWS, cols := COLS, update_freq := UPDATE_FREQ }

/-- The state owned by `main`'s loop.  `grid_positions`, `count`, `playing`,
`running` and `iteration` are the five Python variables.  The two extra fields
are ghost instrumentation and influence nothing: `gen_transitions` counts the
completed generation transitions (`grid_positions = apply_rules(...)` in the
loop body) and `play_ticks` counts the loop iterations that began with
`playing` true; both are reset exactly where `iteration` is reset. -/
structure SimState where
  grid_positions : Finset (ℤ × ℤ)
  count : ℕ
  playing : Bool
  running : Bool
  iteration : ℕ
  gen_transitions : ℕ
  play_ticks : ℕ

/-- The input events distinguished by `handle_event`: `QUIT`, `KEYDOWN` with a
key code, `MOUSEBUTTONDOWN` with a button number and the mouse position, and
every other pygame event (`other`).  A keydown carries the coin consumed by
`generate_random_grid_positions` when the key is `K_r`. -/
inductive Event where
  | quit : Event
  | keydown (key : ℕ) (coin : ℤ × ℤ → Bool) : Event
  | mousebuttondown (button : ℕ) (mouse_pos : ℤ × ℤ) : Event
  | other : Event

/-- `handle_event`, translated branch by branch.  The ghost fields are reset
together with `iteration`. -/
def handle_event (cfg : Config) (event : Event) (s : SimState) : SimState :=
  match event with
  | .quit => { s with running := false }
  | .keydown key coin =>
      if key = K_SPACE then { s with playing := !s.playing }
      else if key = K_c then
        { s with grid_positions := ∅, playing := false, count := 0,
                 iteration := 0, gen_transitions := 0, play_ticks := 0 }
      else if key = K_r then
        { s with grid_positions :=
                   generate_random_grid_positions cfg.rows cfg.cols coin,
                 iteration := 0, gen_transitions := 0, play_ticks := 0 }
      else if key = K_p then
        { s with grid_positions := generate_pattern cfg.rows cfg.cols,
                 iteration := 0, playing := false,
                 gen_transitions := 0, play_ticks := 0 }
      else s
  | .mousebuttondown button mouse_pos =>
      if button = 1 then
        { s with grid_positions := handle_mouse_click s.grid_positions mouse_pos }
      else s
  | .other => s

/-- The first half of one `while running` iteration: when playing, increment
`count` and `iteration`; then, when `count` has reached `UPDATE_FREQ`, reset it
and replace the live-cell set with `apply_rules(grid_positions)`.  Ghost
counters are bumped alongside. -/
def update_phase (cfg : Config) (s : SimState) : SimState :=
  let s1 := if s.playing then
      { s with count := s.count + 1, iteration := s.iteration + 1,
               play_ticks := s.play_ticks + 1 }
    else s
  if s1.count ≥ cfg.update_freq then
    { s1 with count := 0,
              grid_positions := apply_rules s1.grid_positions cfg.rows cfg.cols,
              gen_transitions := s1.gen_transitions + 1 }
  else s1

/-- One full `while running` iteration: the update phase followed by
`handle_event` over the frame's polled events, in order.  Drawing and the
clock are irrelevant to the owned state and are not modelled. -/
def tick (cfg : Config) (events : List Event) (s : SimState) : SimState :=
  events.foldl (fun t event => handle_event cfg event t) (update_phase cfg s)

/-- The state at the top of `main`'s loop: empty grid, paused, running,
counters at zero. -/
def initState : SimState :=
  { grid_positions := ∅, count := 0, playing := false, running := true,
    iteration := 0, gen_transitions := 0, play_ticks := 0 }

/-- The shell guarantee on raw events: `pygame.mouse.get_pos()` lies inside
the window, whose pixel size is `COLS * TILE_SIZE` by `ROWS * TILE_SIZE`
(in the source `SCREEN_WIDTH = 1200 = 240 * 5` exactly). -/
def ValidEvent (cfg : Config) : Event → Prop
  | .mousebuttondown _ mouse_pos =>
      0 ≤ mouse_pos.1 ∧ mouse_pos.1 < cfg.cols * TILE_SIZE ∧
      0 ≤ mouse_pos.2 ∧ mouse_pos.2 < cfg.rows * TILE_SIZE
  | _ => True

/-- The states reachable by `main`'s loop from its initial state, one loop
iteration at a time, with any frame event sequence satisfying the shell
guarantee. -/
inductive Reachable (cfg : Config) : SimState → Prop where
  | init : Reachable cfg initState
  | step {s : SimState} (events : List Event) :
      Reachable cfg s → (∀ e ∈ events, ValidEvent cfg e) →
      Reachable cfg (tick cfg events s)

/-- A coin whose every draw fails: the random generator returns the empty
set.  Used for concrete scenarios where the random branch is never taken. -/
def coinFalse : ℤ × ℤ → Bool := fun _ => false

/-- The 10×10 grid with one tick per generation, the configuration of the
blinker scenario in the spec. -/
def blinkerConfig : Config := { rows := 10, cols := 10, update_freq := 1 }

/-- The vertical blinker start state of the spec scenario: paused, live set
`{(5,5),(5,6),(5,7)}`. -/
def blinkerState : SimState :=
  { grid_positions := {(5, 5), (5, 6), (5, 7)}, count := 0, playing := false,
    running := true, iteration := 0, gen_transitions := 0, play_ticks := 0 }

/-- The coordinates a loop state may store, as a predicate: first component
(the x used by drawing and clicking) in `[0, cols)`, second in `[0, rows)`. -/
def InBounds (cfg : Config) (g : Finset (ℤ × ℤ)) : Prop :=
  ∀ p ∈ g, 0 ≤ p.1 ∧ p.1 < cfg.cols ∧ 0 ≤ p.2 ∧ p.2 < cfg.rows

/-- The concrete loop run used against the generation-counter claim: a frame
whose events contain only the space key (TogglePlay), then one frame with no
events. -/
def twoTickRun : SimState :=
  tick sourceConfig []
    (tick sourceConfig [Event.keydown K_SPACE coinFalse] initState)

/-- A loop state with tick accumulator 1, used to exhibit the effect of the
randomize/pattern keys on `count`. -/
def accumState : SimState :=
  { grid_positions := ∅, count := 1, playing := true, running := true,
    iteration := 5, gen_transitions := 0, play_ticks := 0 }

/-- A one-frame run containing a single left click at pixel `(7, 12)`, which
toggles the cell `(1, 2)`. -/
def clickRun : SimState :=
  tick sourceConfig [Event.mousebuttondown 1 (7, 12)] initState

/-! ## Helper lemmas -/

theorem mem_grid_cells {p : ℤ × ℤ} {rows cols : ℤ} :
    p ∈ grid_cells rows cols ↔
      (0 ≤ p.1 ∧ p.1 < rows) ∧ (0 ≤ p.2 ∧ p.2 < cols) := by
  rw [grid_cells, Finset.mem_product, Finset.mem_Icc, Finset.mem_Icc]
  omega

theorem foldl_handle_event_induction (cfg : Config) (P : SimState → Prop)
    (hP : ∀ e t, ValidEvent cfg e → P t → P (handle_event cfg e t)) :
    ∀ (events : List Event), (∀ e ∈ events, ValidEvent cfg e) →
      ∀ t, P t → P (events.foldl (fun t e => handle_event cfg e t) t) := by
  intro events
  induction events with
  | nil => intro _ t ht; exact ht
  | cons e es ih =>
      intro hv t ht
      simp only [List.foldl_cons]
      exact ih (fun x hx => hv x (List.mem_cons_of_mem e hx)) _
        (hP e t (hv e (List.mem_cons_self e es)) ht)

theorem handle_event_count_cases (cfg : Config) (e : Event) (t : SimState) :
    (handle_event cfg e t).count = t.count ∨ (handle_event cfg e t).count = 0 := by
  cases e with
  | quit => exact Or.inl rfl
  | keydown key coin =>
      simp only [handle_event]
      split_ifs <;> simp
  | mousebuttondown button mouse_pos =>
      simp only [handle_event]
      split_ifs <;> simp
  | other => exact Or.inl rfl

theorem handle_event_iteration_play_ticks (cfg : Config) (e : Event)
    (t : SimState) (h : t.iteration = t.play_ticks) :
    (handle_event cfg e t).iteration = (handle_event cfg e t).play_ticks := by
  cases e with
  | quit => exact h
  | keydown key coin =>
      simp only [handle_event]
      split_ifs <;> simp [h]
  | mousebuttondown button mouse_pos =>
      simp only [handle_event]
      split_ifs <;> simp [h]
  | other => exact h

theorem update_phase_iteration_play_ticks (cfg : Config) (t : SimState)
    (h : t.iteration = t.play_ticks) :
    (update_phase cfg t).iteration = (update_phase cfg t).play_ticks := by
  simp only [update_phase]
  split_ifs <;> simp [h]

theorem update_phase_count_lt (cfg : Config) (hfreq : 1 ≤ cfg.update_freq)
    (t : SimState) : (update_phase cfg t).count < cfg.update_freq := by
  simp only [update_phase]
  split_ifs <;> simp_all <;> omega

theorem reachable_count_lt (cfg : Config) (hfreq : 1 ≤ cfg.update_freq) :
    ∀ s, Reachable cfg s → s.count < cfg.update_freq := by
  intro s h
  induction h with
  | init => simpa [initState] using hfreq
  | step events hs hv ih =>
      refine foldl_handle_event_induction cfg
        (fun t => t.count < cfg.update_freq) ?_ events hv _
        (update_phase_count_lt cfg hfreq _)
      intro e t _ ht
      rcases handle_event_count_cases cfg e t with hc | hc <;> omega

theorem fdiv_tile_bound {m bound : ℤ} (h0 : 0 ≤ m)
    (h : m < bound * TILE_SIZE) :
    0 ≤ m.fdiv TILE_SIZE ∧ m.fdiv TILE_SIZE < bound := by
  have h5 : TILE_SIZE = 5 := rfl
  rw [h5] at h ⊢
  rw [Int.fdiv_eq_ediv _ (by norm_num)]
  omega

theorem mem_handle_mouse_click {g : Finset (ℤ × ℤ)} {m p : ℤ × ℤ}
    (hp : p ∈ handle_mouse_click g m) :
    p ∈ g ∨ p = (m.1.fdiv TILE_SIZE, m.2.fdiv TILE_SIZE) := by
  simp only [handle_mouse_click] at hp
  split_ifs at hp with h
  · exact Or.inl (Finset.mem_of_mem_erase hp)
  · rcases Finset.mem_insert.mp hp with h1 | h1
    · exact Or.inr h1
    · exact Or.inl h1

theorem generate_random_inbounds (cfg : Config) (coin : ℤ × ℤ → Bool) :
    InBounds cfg (generate_random_grid_positions cfg.rows cfg.cols coin) := by
  intro p hp
  rw [generate_random_grid_positions, Finset.mem_filter, Finset.mem_product,
    Finset.mem_Icc, Finset.mem_Icc] at hp
  omega

theorem generate_pattern_inbounds (cfg : Config) :
    InBounds cfg (generate_pattern cfg.rows cfg.cols) := by
  intro p hp
  rw [generate_pattern, Finset.mem_filter, Finset.mem_product,
    Finset.mem_Icc, Finset.mem_Icc] at hp
  omega

theorem handle_event_inbounds (cfg : Config) (e : Event) (t : SimState)
    (hv : ValidEvent cfg e) (ht : InBounds cfg t.grid_positions) :
    InBounds cfg (handle_event cfg e t).grid_positions := by
  cases e with
  | quit => exact ht
  | keydown key coin =>
      simp only [handle_event]
      split_ifs
      · exact ht
      · intro p hp; simp at hp
      · exact generate_random_inbounds cfg coin
      · exact generate_pattern_inbounds cfg
      · exact ht
  | mousebuttondown button mouse_pos =>
      simp only [handle_event]
      split_ifs
      · intro p hp
        rcases mem_handle_mouse_click hp with h1 | h1
        · exact ht p h1
        · obtain ⟨hv1, hv2, hv3, hv4⟩ := hv
          obtain ⟨hx1, hx2⟩ := fdiv_tile_bound hv1 hv2
          obtain ⟨hy1, hy2⟩ := fdiv_tile_bound hv3 hv4
          subst h1
          exact ⟨hx1, hx2, hy1, hy2⟩
      · exact ht
  | other => exact ht

theorem apply_rules_inbounds (cfg : Config) (hsq : cfg.rows = cfg.cols)
    (g : Finset (ℤ × ℤ)) : InBounds cfg (apply_rules g cfg.rows cfg.cols) := by
  intro p hp
  rw [apply_rules, Finset.mem_filter, mem_grid_cells] at hp
  omega

theorem update_phase_inbounds (cfg : Config) (hsq : cfg.rows = cfg.cols)
    (t : SimState) (ht : InBounds cfg t.grid_positions) :
    InBounds cfg (update_phase cfg t).grid_positions := by
  simp only [update_phase]
  split_ifs
  · exact apply_rules_inbounds cfg hsq _
  · exact ht
  · exact apply_rules_inbounds cfg hsq _
  · exact ht

/-! ## The claims -/

/-- C1: membership in `apply_rules grid_positions rows cols` holds exactly for
the coordinates of the full rows × cols scan that are alive with 2 or 3 live
neighbors (survival) or dead with exactly 3 live neighbors (birth); every
other coordinate is absent. -/
theorem C1_apply_rules_membership (grid_positions : Finset (ℤ × ℤ))
    (rows cols : ℤ) (position : ℤ × ℤ) :
    position ∈ apply_rules grid_positions rows cols ↔
      ((0 ≤ position.1 ∧ position.1 < rows) ∧
        (0 ≤ position.2 ∧ position.2 < cols)) ∧
      ((position ∈ grid_positions ∧
          (count_live_neighbors grid_positions position rows cols = 2 ∨
            count_live_neighbors grid_positions position rows cols = 3)) ∨
        (position ∉ grid_positions ∧
          count_live_neighbors grid_positions position rows cols = 3)) := by
  rw [apply_rules, Finset.mem_filter, mem_grid_cells]
  tauto

/-- C2: `count_live_neighbors` never exceeds 8 (it is a `ℕ`, hence at least
0); each wrapped neighbor has non-negative components inside the grid when the
dimensions are positive; and on a 5×5 grid the wrapped neighbors of `(0,0)`
include `(4,4)`, `(4,0)` and `(0,4)`. -/
theorem C2_count_live_neighbors_range (grid_positions : Finset (ℤ × ℤ))
    (position : ℤ × ℤ) (rows cols : ℤ) :
    count_live_neighbors grid_positions position rows cols ≤ 8 ∧
    (0 < rows → 0 < cols → ∀ q ∈ wrapped_neighbors position rows cols,
      0 ≤ q.1 ∧ q.1 < cols ∧ 0 ≤ q.2 ∧ q.2 < rows) ∧
    ((4, 4) ∈ wrapped_neighbors (0, 0) 5 5 ∧
      (4, 0) ∈ wrapped_neighbors (0, 0) 5 5 ∧
      (0, 4) ∈ wrapped_neighbors (0, 0) 5 5) := by
  refine ⟨?_, ?_, by decide⟩
  · calc count_live_neighbors grid_positions position rows cols
        ≤ (wrapped_neighbors position rows cols).length :=
          List.countP_le_length _
      _ = 8 := by simp [wrapped_neighbors, offsets]
  · intro hr hc q hq
    simp only [wrapped_neighbors, List.mem_map] at hq
    obtain ⟨off, _, rfl⟩ := hq
    exact ⟨Int.emod_nonneg _ (by omega), Int.emod_lt_of_pos _ hc,
      Int.emod_nonneg _ (by omega), Int.emod_lt_of_pos _ hr⟩

/-- C2 witness: the bound and the three wrapped corner neighbors at a concrete
input. -/
theorem C2_range_witness :
    count_live_neighbors (∅ : Finset (ℤ × ℤ)) ((0 : ℤ), (0 : ℤ)) 5 5 ≤ 8 ∧
    ((4, 4) ∈ wrapped_neighbors ((0 : ℤ), (0 : ℤ)) 5 5 ∧
      (4, 0) ∈ wrapped_neighbors ((0 : ℤ), (0 : ℤ)) 5 5 ∧
      (0, 4) ∈ wrapped_neighbors ((0 : ℤ), (0 : ℤ)) 5 5) :=
  ⟨(C2_count_live_neighbors_range ∅ (0, 0) 5 5).1,
    (C2_count_live_neighbors_range ∅ (0, 0) 5 5).2.2⟩

/-- C3 counterexample: from a state with tick accumulator 1, the `r` key
(Randomize) and the `p` key (SeedPattern) leave `count` at 1, not 0: these
commands do not reset the tick accumulator. -/
theorem C3_counterexample :
    (handle_event sourceConfig (Event.keydown K_r coinFalse) accumState).count = 1 ∧
    (handle_event sourceConfig (Event.keydown K_p coinFalse) accumState).count = 1 ∧
    ¬(handle_event sourceConfig (Event.keydown K_r coinFalse) accumState).count = 0 := by
  refine ⟨rfl, rfl, by decide⟩

/-- C3 (amended): applying Randomize (`r`) or SeedPattern (`p`) always resets
the generation counter `iteration` to 0 for every prior state, and leaves the
tick accumulator `count` unchanged. -/
theorem C3_amended_reset_iteration (cfg : Config) (coin : ℤ × ℤ → Bool)
    (s : SimState) :
    (handle_event cfg (Event.keydown K_r coin) s).iteration = 0 ∧
    (handle_event cfg (Event.keydown K_r coin) s).count = s.count ∧
    (handle_event cfg (Event.keydown K_p coin) s).iteration = 0 ∧
    (handle_event cfg (Event.keydown K_p coin) s).count = s.count :=
  ⟨rfl, rfl, rfl, rfl⟩

/-- C4 counterexample: after a TogglePlay frame and one playing frame, the
state is reachable, no generation transition has completed
(`gen_transitions = 0`), yet `iteration = 1`: the generation counter does not
equal the number of completed transitions since its last reset. -/
theorem C4_counterexample :
    Reachable sourceConfig twoTickRun ∧
    twoTickRun.iteration = 1 ∧ twoTickRun.gen_transitions = 0 ∧
    ¬twoTickRun.iteration = twoTickRun.gen_transitions := by
  refine ⟨?_, by decide, by decide, by decide⟩
  refine Reachable.step [] (Reachable.step _ Reachable.init ?_) ?_
  · intro e he
    rw [List.mem_singleton] at he
    subst he
    trivial
  · intro e he
    exact absurd he (List.not_mem_nil e)

/-- C4 (amended): in every reachable state, `iteration` equals the number of
loop iterations begun in playing mode since its last reset (the ghost
`play_ticks`): the counter is incremented once per scheduling tick while
playing — hence `update_freq` times per completed generation transition — not
once per transition. -/
theorem C4_amended_iteration_counts_ticks (cfg : Config) (s : SimState)
    (h : Reachable cfg s) : s.iteration = s.play_ticks := by
  induction h with
  | init => rfl
  | step events hs hv ih =>
      refine foldl_handle_event_induction cfg
        (fun t => t.iteration = t.play_ticks) ?_ events hv _
        (update_phase_iteration_play_ticks cfg _ ih)
      intro e t _ ht
      exact handle_event_iteration_play_ticks cfg e t ht

/-- C4 witness: the amended equality at the initial state. -/
theorem C4_amended_witness : initState.iteration = initState.play_ticks :=
  C4_amended_iteration_counts_ticks sourceConfig initState Reachable.init

/-- C5: for every reachable state in paused mode (under any configuration
with a positive update frequency, the source's being 2), the update phase of
the next loop iteration leaves the live-cell set untouched: generation
transitions never occur while paused. -/
theorem C5_paused_no_transition (cfg : Config) (s : SimState)
    (hfreq : 1 ≤ cfg.update_freq) (hs : Reachable cfg s)
    (hp : s.playing = false) :
    (update_phase cfg s).grid_positions = s.grid_positions := by
  have hc := reachable_count_lt cfg hfreq s hs
  simp only [update_phase, hp, Bool.false_eq_true, if_false]
  rw [if_neg (by omega)]

/-- C5 witness: the paused initial state of the source configuration. -/
theorem C5_paused_witness :
    (update_phase sourceConfig initState).grid_positions =
      initState.grid_positions :=
  C5_paused_no_transition sourceConfig initState (by decide) Reachable.init rfl

/-- C6: every reachable state of the source-configured loop (240×240 grid)
stores only in-bounds coordinates: first component in `[0, COLS)`, second in
`[0, ROWS)`. -/
theorem C6_reachable_inbounds (s : SimState) (hs : Reachable sourceConfig s) :
    ∀ p ∈ s.grid_positions, 0 ≤ p.1 ∧ p.1 < sourceConfig.cols ∧
      0 ≤ p.2 ∧ p.2 < sourceConfig.rows := by
  have hsq : sourceConfig.rows = sourceConfig.cols := rfl
  induction hs with
  | init => intro p hp; simp [initState] at hp
  | step events hs hv ih =>
      exact foldl_handle_event_induction sourceConfig
        (fun t => InBounds sourceConfig t.grid_positions)
        (fun e t hv ht => handle_event_inbounds sourceConfig e t hv ht)
        events hv _ (update_phase_inbounds sourceConfig hsq _ ih)

/-- C6 witness: the cell toggled by a click at pixel `(7, 12)` in a reachable
one-frame run is `(1, 2)`, which is in bounds. -/
theorem C6_inbounds_witness :
    0 ≤ ((1 : ℤ), (2 : ℤ)).1 ∧ ((1 : ℤ), (2 : ℤ)).1 < sourceConfig.cols ∧
    0 ≤ ((1 : ℤ), (2 : ℤ)).2 ∧ ((1 : ℤ), (2 : ℤ)).2 < sourceConfig.rows :=
  C6_reachable_inbounds clickRun
    (Reachable.step [Event.mousebuttondown 1 (7, 12)] Reachable.init
      (by intro e he
          rw [List.mem_singleton] at he
          subst he
          exact ⟨by decide, by decide, by decide, by decide⟩))
    (1, 2) (by decide)

/-- C7: the spec's blinker scenario on the 10×10 grid with one tick per
generation: from the paused vertical blinker, a TogglePlay frame, then one
tick gives the horizontal blinker `{(4,6),(5,6),(6,6)}` and a second tick
returns the vertical blinker `{(5,5),(5,6),(5,7)}`. -/
theorem C7_blinker_scenario :
    (tick blinkerConfig []
        (tick blinkerConfig [Event.keydown K_SPACE coinFalse] blinkerState)
      ).grid_positions = {(4, 6), (5, 6), (6, 6)} ∧
    (tick blinkerConfig []
        (tick blinkerConfig []
          (tick blinkerConfig [Event.keydown K_SPACE coinFalse] blinkerState))
      ).grid_positions = {(5, 5), (5, 6), (5, 7)} := by
  decide

/-- C8: toggling the cell under a mouse position twice, with no generation
step in between, restores the original membership of that cell. -/
theorem C8_toggle_involution (grid_positions : Finset (ℤ × ℤ))
    (mouse_pos : ℤ × ℤ) :
    ((mouse_pos.1.fdiv TILE_SIZE, mouse_pos.2.fdiv TILE_SIZE) ∈
        handle_mouse_click (handle_mouse_click grid_positions mouse_pos)
          mouse_pos) ↔
      (mouse_pos.1.fdiv TILE_SIZE, mouse_pos.2.fdiv TILE_SIZE) ∈
        grid_positions := by
  by_cases h : (mouse_pos.1.fdiv TILE_SIZE, mouse_pos.2.fdiv TILE_SIZE) ∈
      grid_positions <;>
    simp [handle_mouse_click, h]

/-- C9 counterexample: a click at pixel `(1500, 0)` derives the grid
coordinate `(300, 0)`, outside the 240-column grid, and the toggle is applied
— the out-of-bounds coordinate is stored in the live-cell set, not rejected. -/
theorem C9_counterexample :
    ((300 : ℤ), (0 : ℤ)) ∈ handle_mouse_click (∅ : Finset (ℤ × ℤ)) (1500, 0) ∧
    ¬((300 : ℤ) < sourceConfig.cols) := by
  decide

/-- C9 (amended): the controller performs no bounds validation on a cell
toggle: `handle_mouse_click` applies the toggle unconditionally to the derived
grid coordinate, whether or not it lies within grid bounds. -/
theorem C9_amended_no_validation (grid_positions : Finset (ℤ × ℤ))
    (mouse_pos : ℤ × ℤ) :
    ((mouse_pos.1.fdiv TILE_SIZE, mouse_pos.2.fdiv TILE_SIZE) ∈
        handle_mouse_click grid_positions mouse_pos) ↔
      (mouse_pos.1.fdiv TILE_SIZE, mouse_pos.2.fdiv TILE_SIZE) ∉
        grid_positions := by
  by_cases h : (mouse_pos.1.fdiv TILE_SIZE, mouse_pos.2.fdiv TILE_SIZE) ∈
      grid_positions <;>
    simp [handle_mouse_click, h]

/-- C10: every event that is not QUIT, not a KEYDOWN of space/c/r/p and not a
left-button MOUSEBUTTONDOWN leaves the whole loop state — live-cell set, tick
accumulator, playing flag, running flag and generation counter — unchanged. -/
theorem C10_unrecognized_noop (cfg : Config) (s : SimState) :
    (∀ key coin, key ≠ K_SPACE → key ≠ K_c → key ≠ K_r → key ≠ K_p →
      handle_event cfg (Event.keydown key coin) s = s) ∧
    (∀ button mouse_pos, button ≠ 1 →
      handle_event cfg (Event.mousebuttondown button mouse_pos) s = s) ∧
    handle_event cfg Event.other s = s := by
  refine ⟨?_, ?_, rfl⟩
  · intro key coin h1 h2 h3 h4
    simp [handle_event, h1, h2, h3, h4]
  · intro button mouse_pos h
    simp [handle_event, h]

/-- C10 witness: the `x` key (code 120) is a no-op on the initial state. -/
theorem C10_noop_witness :
    handle_event sourceConfig (Event.keydown 120 coinFalse) initState =
      initState :=
  (C10_unrecognized_noop sourceConfig initState).1 120 coinFalse
    (by decide) (by decide) (by decide) (by decide)

end Life
